import Mathlib

/-!
Verification of the cmgen IBL precomputation pipeline (src/tools/cmgen/src/cmgen.cpp)
against its natural-language specification. The definitions below are shallow
embeddings of the driver logic in cmgen.cpp; helpers that live in headers or
translation units outside the provided sources (math/scalar.h, CubemapSH,
CubemapIBL, imageio/BlockCompression, image/KtxBundle.h) are modelled from the
specification and marked as such in their doc comments.
-/

namespace Cmgen

/-- Modelled from the spec: `isPOT` from math/scalar.h (not under src/); the spec's
"power of two" test used by the driver to gate cross layouts and the `--size` option. -/
def isPOT (n : Nat) : Bool := decide (∃ k, k < n + 1 ∧ n = 2 ^ k)

/-- For positive `n`, the driver's power-of-two test agrees with the mathematical
notion "`n` is a power of two". -/
theorem isPOT_iff (n : Nat) : isPOT n = true ↔ ∃ k, n = 2 ^ k := by
  unfold isPOT
  rw [decide_eq_true_iff]
  constructor
  · rintro ⟨k, -, hk⟩; exact ⟨k, hk⟩
  · rintro ⟨k, hk⟩
    refine ⟨k, ?_, hk⟩
    have := Nat.lt_two_pow k
    omega

/-- The layout the driver chooses for an input image that exists and decodes. -/
inductive Layout where
  | cross
  | equirect
deriving DecidableEq, Repr

/-- cmgen.cpp:490-521 (`main`): the input raster of width `w` and height `h` is
loaded as a cross cubemap when `(isPOT(width) && width*3 == height*4) ||
(isPOT(height) && height*3 == width*4)`, as an equirectangular image when
`width == 2*height`, and is otherwise rejected with an aspect-ratio error. -/
def classifyInput (w h : Nat) : Option Layout :=
  if (isPOT w && w * 3 == h * 4) || (isPOT h && h * 3 == w * 4) then
    some Layout.cross
  else if w == 2 * h then
    some Layout.equirect
  else
    none

/-- The orientation of a cross layout, named after the driver's own error-message
taxonomy (cmgen.cpp:518-519): "3:4, vertical cross (height must be power of two)",
"4:3, horizontal cross (width must be power of two)". -/
inductive CrossOrientation where
  | horizontal
  | vertical
deriving DecidableEq, Repr

/-- cmgen.cpp:490-521 (`main`): the cross admission conditions, paired with the
orientation each branch names in the driver's error messages: the
`isPOT(width) && width*3 == height*4` case is the 4:3 horizontal cross, the
`isPOT(height) && height*3 == width*4` case is the 3:4 vertical cross. -/
def crossDetect (w h : Nat) : Option CrossOrientation :=
  if isPOT w && w * 3 == h * 4 then some CrossOrientation.horizontal
  else if isPOT h && h * 3 == w * 4 then some CrossOrientation.vertical
  else none

/-- Modelled from the spec's words (§4.2), for comparison with `crossDetect`:
"layout auto-detected from aspect ratio: height = 4/3·width → horizontal cross,
width = 4/3·height → vertical cross". -/
def specCrossDetect (w h : Nat) : Option CrossOrientation :=
  if h * 3 = w * 4 then some CrossOrientation.horizontal
  else if w * 3 = h * 4 then some CrossOrientation.vertical
  else none

/-- The stages of `main`'s in-memory pipeline that run after an input cubemap is
loaded (cmgen.cpp:550-571), plus the two layout conversions that load it. -/
inductive PipelineStage where
  | crossToCubemap
  | equirectToCubemap
  | mirror
  | seamless
  | mipmaps
deriving DecidableEq, Repr

/-- cmgen.cpp:386-388 and 550-571: after option parsing, `g_mirror` holds whether
`--no-mirror` was passed (case 'm' sets it to true). `main` then executes
`g_mirror = !g_mirror` and mirrors the level-0 cubemap exactly when the inverted
flag is true, followed unconditionally by `makeSeamless` and `generateMipmaps`. -/
def postLoadStages (gMirrorFlag : Bool) : List PipelineStage :=
  let gMirror := !gMirrorFlag
  (if gMirror then [PipelineStage.mirror] else [])
    ++ [PipelineStage.seamless, PipelineStage.mipmaps]

/-- cmgen.cpp:490-521 then 550-571: the driver either rejects the decoded image
with an aspect-ratio error (`exit(0)`, carrying exit status 0 and running no
pipeline stage) or converts it with the layout-appropriate converter and runs the
post-load stages. -/
def pipelineTrace (w h : Nat) (gMirrorFlag : Bool) : Except Nat (List PipelineStage) :=
  match classifyInput w h with
  | some Layout.cross => Except.ok (PipelineStage.crossToCubemap :: postLoadStages gMirrorFlag)
  | some Layout.equirect =>
      Except.ok (PipelineStage.equirectToCubemap :: postLoadStages gMirrorFlag)
  | none => Except.error 0

/-- cmgen.cpp:464-521 (`main`): validation of an existing input file. A failed
decode exits with status 1, a channel count other than 3 exits with status 1, and
an unsupported aspect ratio exits with status 0. -/
def validateDecodedImage (decodeOk : Bool) (channels w h : Nat) : Except Nat Layout :=
  if decodeOk = false then Except.error 1
  else if channels ≠ 3 then Except.error 1
  else match classifyInput w h with
    | some l => Except.ok l
    | none => Except.error 0

/-- cmgen.cpp:311-317 (`handleCommandLineArgments`, case 's'): a `--size` value
that is not a power of two prints an error and exits with status 0. -/
def checkOutputSizeOption (s : Nat) : Except Nat Nat :=
  if isPOT s then Except.ok s else Except.error 0

end Cmgen

namespace Cmgen

/-- C1: For every decoded 3-channel input image of width `w` and height `h` (both
positive), the pipeline accepts it and builds a cubemap exactly when `w = 2*h`
(equirectangular), or `w*3 = h*4` with `w` a power of two (cross), or `h*3 = w*4`
with `h` a power of two (cross); every other `(w, h)` is rejected with the
aspect-ratio error exit (status 0) whose trace contains no conversion, mirroring,
seam fix-up or filtering stage. -/
theorem c1_aspect_ratio_gate (w h : Nat) (f : Bool) (hw : 1 ≤ w) (hh : 1 ≤ h) :
    ((∃ t, pipelineTrace w h f = Except.ok t) ↔
      (w = 2 * h ∨ (w * 3 = h * 4 ∧ ∃ k, w = 2 ^ k) ∨ (h * 3 = w * 4 ∧ ∃ k, h = 2 ^ k)))
    ∧ (¬ (w = 2 * h ∨ (w * 3 = h * 4 ∧ ∃ k, w = 2 ^ k) ∨ (h * 3 = w * 4 ∧ ∃ k, h = 2 ^ k)) →
        pipelineTrace w h f = Except.error 0) := by
  have hcross : ((isPOT w && w * 3 == h * 4) || (isPOT h && h * 3 == w * 4)) = true ↔
      ((w * 3 = h * 4 ∧ ∃ k, w = 2 ^ k) ∨ (h * 3 = w * 4 ∧ ∃ k, h = 2 ^ k)) := by
    simp only [Bool.or_eq_true, Bool.and_eq_true, beq_iff_eq, isPOT_iff]
    tauto
  have hmain : (∃ t, pipelineTrace w h f = Except.ok t) ↔
      (w = 2 * h ∨ (w * 3 = h * 4 ∧ ∃ k, w = 2 ^ k) ∨ (h * 3 = w * 4 ∧ ∃ k, h = 2 ^ k)) := by
    unfold pipelineTrace classifyInput
    by_cases hc : ((w * 3 = h * 4 ∧ ∃ k, w = 2 ^ k) ∨ (h * 3 = w * 4 ∧ ∃ k, h = 2 ^ k))
    · rw [if_pos (hcross.mpr hc)]
      exact ⟨fun _ => Or.inr hc, fun _ => ⟨_, rfl⟩⟩
    · rw [if_neg (fun hb => hc (hcross.mp hb))]
      by_cases he : w = 2 * h
      · rw [if_pos (by simpa using he)]
        exact ⟨fun _ => Or.inl he, fun _ => ⟨_, rfl⟩⟩
      · rw [if_neg (by simpa using he)]
        constructor
        · rintro ⟨t, ht⟩; exact absurd ht (by simp)
        · rintro (h1 | h2 | h3)
          · exact absurd h1 he
          · exact absurd (Or.inl h2) hc
          · exact absurd (Or.inr h3) hc
  refine ⟨hmain, fun hrej => ?_⟩
  rcases hpt : pipelineTrace w h f with e | t
  · unfold pipelineTrace at hpt
    rcases hcl : classifyInput w h with - | l
    · rw [hcl] at hpt
      cases hpt
      rfl
    · rw [hcl] at hpt; cases l <;> cases hpt
  · exact absurd (hmain.mp ⟨t, hpt⟩) hrej

/-- Witness for C1 at the spec's end-to-end example: a 512×256 equirectangular
input is accepted, and a 500×300 input is rejected with exit status 0. -/
theorem c1_aspect_ratio_gate_witness :
    (∃ t, pipelineTrace 512 256 false = Except.ok t)
    ∧ pipelineTrace 500 300 false = Except.error 0 := by
  constructor
  · exact (c1_aspect_ratio_gate 512 256 false (by decide) (by decide)).1.mpr
      (Or.inl (by decide))
  · exact (c1_aspect_ratio_gate 500 300 false (by decide) (by decide)).2
      (by rintro (h1 | ⟨h2, -⟩ | ⟨h3, -⟩) <;> omega)

/-- C3 counterexample: an 8×6 input (width = 4/3·height, width a power of two)
is detected by the driver as a horizontal cross, while the spec's stated mapping
("width = 4/3·height → vertical cross") labels it a vertical cross. -/
theorem c3_orientation_counterexample :
    crossDetect 8 6 = some CrossOrientation.horizontal
    ∧ specCrossDetect 8 6 = some CrossOrientation.vertical
    ∧ crossDetect 8 6 ≠ specCrossDetect 8 6 := by
  refine ⟨by decide, by decide, by decide⟩

/-- C3 amended: for positive dimensions, cross auto-detection maps an input whose
width equals 4/3 of its height (`w*3 = h*4`) to a HORIZONTAL cross, admitted only
when the width is a power of two, and an input whose height equals 4/3 of its
width (`h*3 = w*4`) to a VERTICAL cross, admitted only when the height is a power
of two (the spec's two orientation labels are swapped). -/
theorem c3_orientation_amended (w h : Nat) (hw : 1 ≤ w) (hh : 1 ≤ h) :
    (crossDetect w h = some CrossOrientation.horizontal ↔
      (w * 3 = h * 4 ∧ ∃ k, w = 2 ^ k))
    ∧ (crossDetect w h = some CrossOrientation.vertical ↔
      (h * 3 = w * 4 ∧ ∃ k, h = 2 ^ k)) := by
  unfold crossDetect
  by_cases h1 : (isPOT w && w * 3 == h * 4) = true
  · rw [if_pos h1]
    simp only [Bool.and_eq_true, beq_iff_eq, isPOT_iff] at h1
    constructor
    · exact ⟨fun _ => ⟨h1.2, h1.1⟩, fun _ => rfl⟩
    · constructor
      · intro hc; exact absurd hc (by simp)
      · rintro ⟨h3, -⟩
        -- both aspect conditions together force w = h = 0
        exfalso; have := h1.2; omega
  · rw [if_neg h1]
    simp only [Bool.and_eq_true, beq_iff_eq, isPOT_iff, not_and] at h1
    by_cases h2 : (isPOT h && h * 3 == w * 4) = true
    · rw [if_pos h2]
      have h2' := h2
      simp only [Bool.and_eq_true, beq_iff_eq, isPOT_iff] at h2'
      constructor
      · constructor
        · intro hc; exact absurd hc (by simp)
        · rintro ⟨h3, -⟩
          exfalso; have := h2'.2; omega
      · exact ⟨fun _ => ⟨h2'.2, h2'.1⟩, fun _ => rfl⟩
    · rw [if_neg h2]
      simp only [Bool.and_eq_true, beq_iff_eq, isPOT_iff, not_and] at h2
      constructor
      · constructor
        · intro hc; exact absurd hc (by simp)
        · rintro ⟨h3, hk⟩; exact absurd h3 (h1 hk)
      · constructor
        · intro hc; exact absurd hc (by simp)
        · rintro ⟨h3, hk⟩; exact absurd h3 (h2 hk)

/-- Witness for C3's amended theorem: 8×6 is the horizontal cross case and
6×8 the vertical cross case. -/
theorem c3_orientation_amended_witness :
    crossDetect 8 6 = some CrossOrientation.horizontal
    ∧ crossDetect 6 8 = some CrossOrientation.vertical := by
  constructor
  · exact (c3_orientation_amended 8 6 (by decide) (by decide)).1.mpr
      ⟨by decide, 3, by decide⟩
  · exact (c3_orientation_amended 6 8 (by decide) (by decide)).2.mpr
      ⟨by decide, 3, by decide⟩

/-- C9: mirroring is on by default and `--no-mirror` turns it off: for every
input, when the flag is absent the level-0 cubemap is replaced by its mirrored
copy before the seam fix-up and mip generation stages, and when the flag is
passed the mirroring stage is skipped entirely; the flag inverts the default. -/
theorem c9_mirror_default :
    postLoadStages false = [PipelineStage.mirror, PipelineStage.seamless, PipelineStage.mipmaps]
    ∧ postLoadStages true = [PipelineStage.seamless, PipelineStage.mipmaps]
    ∧ (∀ gMirrorFlag, PipelineStage.mirror ∈ postLoadStages gMirrorFlag ↔ gMirrorFlag = false) := by
  refine ⟨rfl, rfl, fun g => ?_⟩
  cases g <;> decide

/-- C10: input-validation failures terminate with differing exit statuses: an
unsupported aspect ratio (positive dimensions) or a non-power-of-two `--size`
value exits with status 0 (the success code), while an undecodable input image or
a channel count other than 3 exits with status 1. -/
theorem c10_exit_statuses :
    (∀ channels w h : Nat, validateDecodedImage false channels w h = Except.error 1)
    ∧ (∀ (channels w h : Nat), channels ≠ 3 →
        validateDecodedImage true channels w h = Except.error 1)
    ∧ (∀ w h : Nat, classifyInput w h = none →
        validateDecodedImage true 3 w h = Except.error 0)
    ∧ (∀ s : Nat, 1 ≤ s → ¬ (∃ k, s = 2 ^ k) → checkOutputSizeOption s = Except.error 0) := by
  refine ⟨fun channels w h => rfl, fun channels w h hc => ?_, fun w h hcl => ?_, fun s hs hk => ?_⟩
  · unfold validateDecodedImage
    rw [if_neg (by simp), if_pos hc]
  · unfold validateDecodedImage
    rw [if_neg (by simp), if_neg (by simp), hcl]
  · unfold checkOutputSizeOption
    rw [if_neg (by simpa [isPOT_iff] using hk)]

/-- Witness for C10: decode failure and a 4-channel image exit with status 1; a
5×7 image (unsupported aspect ratio) and `--size 3` exit with status 0. -/
theorem c10_exit_statuses_witness :
    validateDecodedImage false 3 4 4 = Except.error 1
    ∧ validateDecodedImage true 4 512 256 = Except.error 1
    ∧ validateDecodedImage true 3 5 7 = Except.error 0
    ∧ checkOutputSizeOption 3 = Except.error 0 := by
  refine ⟨c10_exit_statuses.1 3 4 4, c10_exit_statuses.2.1 4 512 256 (by decide),
    c10_exit_statuses.2.2.1 5 7 (by decide), c10_exit_statuses.2.2.2 3 (by decide) ?_⟩
  rintro ⟨k, hk⟩
  rcases lt_or_ge k 2 with h | h
  · interval_cases k <;> omega
  · have : 2 ^ 2 ≤ 2 ^ k := Nat.pow_le_pow_right (by omega) h
    omega

/-- cmgen.cpp:628-642 (`generateMipmaps`), the `while (dim > 1)` loop: starting
from the base dimension it repeatedly halves (`dim >>= 1`) and appends a level of
the halved dimension, stopping once the dimension reaches 1. The value returned
is the list of appended level dimensions. -/
def mipLoopDims (dim : Nat) : List Nat :=
  if 1 < dim then (dim / 2) :: mipLoopDims (dim / 2) else []
termination_by dim
decreasing_by exact Nat.div_lt_self (by omega) (by omega)

/-- cmgen.cpp:628-642 (`generateMipmaps`): the chain of level dimensions after
appending all mip levels of the base level `levels[0]` to the incoming chain. -/
def generateMipmaps (levels : List Nat) : List Nat :=
  levels ++ mipLoopDims (levels.headD 0)

theorem mipLoopDims_two_pow_succ (k : Nat) :
    mipLoopDims (2 ^ (k + 1)) = 2 ^ k :: mipLoopDims (2 ^ k) := by
  rw [mipLoopDims]
  have h1 : 1 < 2 ^ (k + 1) := by
    have : 2 ^ 1 ≤ 2 ^ (k + 1) := Nat.pow_le_pow_right (by omega) (by omega)
    omega
  have h2 : 2 ^ (k + 1) / 2 = 2 ^ k := by
    rw [pow_succ, Nat.mul_div_cancel]
    omega
  rw [if_pos h1, h2]

/-- C2: for every power-of-two base edge length `2^k`, `generateMipmaps` on a
chain holding one base level of dimension `2^k` appends levels whose edge lengths
halve at each step down to dimension 1, producing a chain of exactly
`log2(baseDim) + 1` levels; in particular a 256-edge base yields a 9-level chain
(256 down to 1). -/
theorem c2_mip_chain_length (k : Nat) :
    generateMipmaps [2 ^ k] = (List.range (k + 1)).map (fun i => 2 ^ (k - i))
    ∧ (generateMipmaps [2 ^ k]).length = Nat.log 2 (2 ^ k) + 1
    ∧ generateMipmaps [256] =
        [256, 128, 64, 32, 16, 8, 4, 2, 1]
    ∧ (generateMipmaps [256]).length = 9 := by
  have key : ∀ n : Nat,
      generateMipmaps [2 ^ n] = (List.range (n + 1)).map (fun i => 2 ^ (n - i)) := by
    intro n
    induction n with
    | zero =>
        show [2 ^ 0] ++ mipLoopDims (2 ^ 0) = _
        rw [mipLoopDims, if_neg (by norm_num : ¬ (1 : Nat) < 2 ^ 0)]
        decide
    | succ m ih =>
        have ih' : [2 ^ m] ++ mipLoopDims (2 ^ m) =
            (List.range (m + 1)).map (fun i => 2 ^ (m - i)) := ih
        show [2 ^ (m + 1)] ++ mipLoopDims (2 ^ (m + 1)) = _
        rw [mipLoopDims_two_pow_succ]
        have hL : [2 ^ (m + 1)] ++ (2 ^ m :: mipLoopDims (2 ^ m)) =
            2 ^ (m + 1) :: ([2 ^ m] ++ mipLoopDims (2 ^ m)) := by
          simp
        rw [hL, ih']
        conv_rhs => rw [List.range_succ_eq_map, List.map_cons, List.map_map]
        congr 1
        apply List.map_congr_left
        intro a _
        simp only [Function.comp_apply]
        congr 1
        omega
  have h256 : generateMipmaps [256] = [256, 128, 64, 32, 16, 8, 4, 2, 1] := by
    rw [show (256 : Nat) = 2 ^ 8 from by norm_num, key 8]
    decide
  refine ⟨key k, ?_, h256, by rw [h256]; rfl⟩
  rw [key k, List.length_map, List.length_range, Nat.log_pow (by omega)]

/-- cmgen.cpp:805-834 (`iblRoughnessPrefilter`): the per-level sample count.
`numSamples` starts at the configured base count and, starting at level 2, is
doubled at each level before being used (`if (level >= 2) numSamples *= 2`).
`prefilterSamples n L` is the value of `numSamples` used when filtering level
`L`. -/
def prefilterSamples (n : Nat) : Nat → Nat
  | 0 => n
  | l + 1 =>
      let prev := prefilterSamples n l
      if l + 1 ≥ 2 then prev * 2 else prev

/-- C4: roughness-chain levels 0 and 1 are filtered with the configured base
sample count `n`, and starting at level 2 the per-level sample count doubles at
each level, so every level `L ≥ 2` uses `n * 2^(L-1)` samples. -/
theorem c4_sample_doubling (n : Nat) :
    prefilterSamples n 0 = n
    ∧ prefilterSamples n 1 = n
    ∧ (∀ L : Nat, 2 ≤ L → prefilterSamples n L = n * 2 ^ (L - 1)) := by
  refine ⟨rfl, rfl, fun L hL => ?_⟩
  induction L with
  | zero => omega
  | succ m ih =>
      rcases Nat.lt_or_ge m 2 with hm | hm
      · interval_cases m
        · omega
        · show (if 2 ≥ 2 then prefilterSamples n 1 * 2 else prefilterSamples n 1) = n * 2 ^ 1
          rw [if_pos (by omega)]
          show n * 2 = n * 2 ^ 1
          ring
      · have ih' := ih (by omega)
        show (if m + 1 ≥ 2 then prefilterSamples n m * 2 else prefilterSamples n m) = _
        rw [if_pos (by omega), ih']
        have : m + 1 - 1 = (m - 1) + 1 := by omega
        rw [this, pow_succ]
        ring

/-- Witness for C4: with a base count of 1024 samples, level 3 uses
1024 · 2² = 4096 samples. -/
theorem c4_sample_doubling_witness : prefilterSamples 1024 3 = 1024 * 2 ^ 2 :=
  (c4_sample_doubling 1024).2.2 3 (by omega)

/-- Modelled from the spec: `saturate` from math/scalar.h (not under src/),
clamping its argument to [0, 1]. -/
def saturate (x : ℚ) : ℚ := min (max x 0) 1

/-- cmgen.cpp:836-839 (`iblRoughnessPrefilter`): level `level` of a roughness
chain with `numLevels` levels is filtered with
`lod = saturate(level / (numLevels - 1.0))` and `linear_roughness = lod * lod`
(the double arithmetic is modelled exactly over ℚ). -/
def linearRoughnessForLevel (numLevels level : Nat) : ℚ :=
  let lod := saturate ((level : ℚ) / ((numLevels : ℚ) - 1))
  lod * lod

/-- One Monte-Carlo sample of the roughness filter: a light direction and its
`dot(N, L)` weight. -/
structure FilterSample (Dir : Type) where
  L : Dir
  weight : ℚ

/-- Modelled from the spec (§4.5): the accumulation of
`CubemapIBL::roughnessFilter` (CubemapIBL.cpp not under src/): sampled radiance
is accumulated weighted by `dot(N, L)` and normalized by the weight sum. -/
def roughnessFilterAccum {Dir : Type} (radiance : Dir → ℚ)
    (samples : List (FilterSample Dir)) : ℚ :=
  (samples.map (fun s => s.weight * radiance s.L)).sum /
    (samples.map (fun s => s.weight)).sum

/-- Modelled from the spec (§4.5): at `linearRoughness = 0` the GGX importance
distribution degenerates to a delta at `H = N`, so each of the `count` drawn
samples has `L = reflect(-N, H) = N` with weight `dot(N, L) = 1`. -/
def ggxSamplesZeroRoughness {Dir : Type} (N : Dir) (count : Nat) :
    List (FilterSample Dir) :=
  List.replicate count { L := N, weight := 1 }

/-- C5: in `iblRoughnessPrefilter` with `numLevels` levels, level `L` is filtered
with linear roughness `(L / (numLevels - 1))²`, which is exactly 0 at level 0 and
exactly 1 at the last level; and with linear roughness 0 the filter reproduces
the base value unchanged at every destination texel (all samples collapse onto
the texel's own direction with weight 1). -/
theorem c5_roughness_levels (numLevels level : Nat)
    (hnl : 2 ≤ numLevels) (hlev : level ≤ numLevels - 1) :
    linearRoughnessForLevel numLevels level = ((level : ℚ) / ((numLevels : ℚ) - 1)) ^ 2
    ∧ linearRoughnessForLevel numLevels 0 = 0
    ∧ linearRoughnessForLevel numLevels (numLevels - 1) = 1
    ∧ (∀ (Dir : Type) (radiance : Dir → ℚ) (N : Dir) (count : Nat), 1 ≤ count →
        roughnessFilterAccum radiance (ggxSamplesZeroRoughness N count) = radiance N) := by
  have hd : (1 : ℚ) ≤ (numLevels : ℚ) - 1 := by
    have : (2 : ℚ) ≤ (numLevels : ℚ) := by exact_mod_cast hnl
    linarith
  have hdpos : (0 : ℚ) < (numLevels : ℚ) - 1 := by linarith
  have hsat : ∀ q : ℚ, 0 ≤ q → q ≤ 1 → saturate q = q := by
    intro q h0 h1
    unfold saturate
    rw [max_eq_left h0, min_eq_left h1]
  have hform : ∀ l : Nat, l ≤ numLevels - 1 →
      linearRoughnessForLevel numLevels l = ((l : ℚ) / ((numLevels : ℚ) - 1)) ^ 2 := by
    intro l hl
    unfold linearRoughnessForLevel
    have hcast : (l : ℚ) ≤ (numLevels : ℚ) - 1 := by
      have h1 : (l : ℚ) ≤ ((numLevels - 1 : Nat) : ℚ) := by exact_mod_cast hl
      have h2 : ((numLevels - 1 : Nat) : ℚ) = (numLevels : ℚ) - 1 := by
        have : (1 : Nat) ≤ numLevels := by omega
        push_cast [this]
        ring
      rw [h2] at h1
      exact h1
    have h0 : (0 : ℚ) ≤ (l : ℚ) / ((numLevels : ℚ) - 1) :=
      div_nonneg (by positivity) hdpos.le
    have h1 : (l : ℚ) / ((numLevels : ℚ) - 1) ≤ 1 :=
      (div_le_one hdpos).mpr hcast
    rw [hsat _ h0 h1]
    ring
  refine ⟨hform level hlev, ?_, ?_, ?_⟩
  · rw [hform 0 (by omega)]
    norm_num
  · rw [hform (numLevels - 1) le_rfl]
    have h2 : ((numLevels - 1 : Nat) : ℚ) = (numLevels : ℚ) - 1 := by
      have : (1 : Nat) ≤ numLevels := by omega
      push_cast [this]
      ring
    rw [h2, div_self hdpos.ne']
    norm_num
  · intro Dir radiance N count hcount
    unfold roughnessFilterAccum ggxSamplesZeroRoughness
    have hc : ((count : ℚ)) ≠ 0 := by
      have hpos : 0 < count := by omega
      exact_mod_cast hpos.ne'
    simp only [List.map_replicate, List.sum_replicate, nsmul_eq_mul, one_mul, mul_one]
    field_simp

/-- Witness for C5: a 9-level chain (256-edge base) gives roughness (4/8)² = 1/4
at level 4, 0 at level 0 and 1 at level 8; a zero-roughness filter of a constant
radiance 5 with 3 samples returns 5. -/
theorem c5_roughness_levels_witness :
    linearRoughnessForLevel 9 4 = ((4 : ℚ) / 8) ^ 2
    ∧ linearRoughnessForLevel 9 0 = 0
    ∧ linearRoughnessForLevel 9 8 = 1
    ∧ roughnessFilterAccum (fun _ : Unit => (5 : ℚ)) (ggxSamplesZeroRoughness () 3) = 5 := by
  obtain ⟨ha, hb, hc, hd⟩ := c5_roughness_levels 9 4 (by omega) (by omega)
  refine ⟨?_, hb, hc, hd Unit (fun _ => (5 : ℚ)) () 3 (by omega)⟩
  rw [ha]
  norm_num

/-- Modelled from the spec: `KtxBundle::RGBA` (image/KtxBundle.h not under src/),
the GL-style generic 4-channel format tag (GL_RGBA). -/
def KtxRGBA : Nat := 0x1908

/-- The KTX container header fields manipulated by `exportKtxFaces`
(GL-style tags, cf. image/KtxBundle.h). -/
structure KtxInfo where
  glType : Nat
  glTypeSize : Nat
  glFormat : Nat
  glInternalFormat : Nat
  glBaseInternalFormat : Nat
deriving DecidableEq, Repr

/-- Modelled from the spec (§3): a compression config successfully parsed from
the compact string grammar. The grammar and fields live in
imageio/BlockCompression (not under src/), so a valid config is abstracted to an
opaque parameter record and `parseOptionString` to a caller-supplied partial
function returning `none` exactly on unrecognized strings. -/
structure CompressionConfig where
  tag : Nat
deriving DecidableEq, Repr

/-- The output of the opaque block compressor: a byte-buffer size and the
specific compressed-format tag (cf. `CompressedTexture` in
imageio/BlockCompression, not under src/). -/
structure CompressedTexture where
  format : Nat
  size : Nat
deriving DecidableEq, Repr

/-- cmgen.cpp:1092-1134 (`exportKtxFaces`): when the compression string is
non-empty it is parsed; an unparseable string prints an error and exits with
status 1. On success the header is set to `glTypeSize = 1`, `glFormat = 0`,
`glBaseInternalFormat = RGBA`, and the loop over the six faces compresses each
face and sets `glInternalFormat` to the format tag the compressor returned (the
write of the last face surviving). With an empty compression string the header
is left unchanged (raw RGBM blobs are stored instead). -/
def exportKtxFaces (info : KtxInfo) (gCompression : List Char)
    (parse : List Char → Option CompressionConfig)
    (compress : CompressionConfig → Nat → CompressedTexture) :
    Except Nat KtxInfo :=
  if gCompression.isEmpty then
    Except.ok info
  else
    match parse gCompression with
    | none => Except.error 1
    | some c =>
        let seeded : KtxInfo :=
          { info with glTypeSize := 1, glFormat := 0, glBaseInternalFormat := KtxRGBA }
        Except.ok ((List.range 6).foldl
          (fun acc j => { acc with glInternalFormat := (compress c j).format }) seeded)

/-- C6: whenever a non-empty compression string is supplied for KTX export,
`exportKtxFaces` parses it; an unrecognized string is a hard input-validation
error aborting the run (exit status 1), and on successful parse the container
header is set to `glTypeSize = 1`, `glFormat = 0`, `glBaseInternalFormat = RGBA`,
while `glInternalFormat` is set to the compressed format tag returned by the
compressor. -/
theorem c6_ktx_compression (info : KtxInfo) (s : List Char)
    (parse : List Char → Option CompressionConfig)
    (compress : CompressionConfig → Nat → CompressedTexture)
    (hne : s ≠ []) :
    (parse s = none → exportKtxFaces info s parse compress = Except.error 1)
    ∧ (∀ c, parse s = some c →
        exportKtxFaces info s parse compress = Except.ok
          { glType := info.glType, glTypeSize := 1, glFormat := 0,
            glInternalFormat := (compress c 5).format,
            glBaseInternalFormat := KtxRGBA }) := by
  have hemp : s.isEmpty = false := by
    cases s with
    | nil => exact absurd rfl hne
    | cons a l => rfl
  constructor
  · intro hp
    unfold exportKtxFaces
    rw [hemp]
    simp only [Bool.false_eq_true, if_false, hp]
  · intro c hp
    unfold exportKtxFaces
    rw [hemp]
    simp only [Bool.false_eq_true, if_false, hp]
    rfl

/-- Witness for C6: with a parser recognizing only "etc" (config tag 7) and a
compressor always returning format tag 37, the string "zz" aborts with status 1
and the string "etc" produces the compressed-mode header. -/
theorem c6_ktx_compression_witness :
    exportKtxFaces
        { glType := 0x1401, glTypeSize := 4, glFormat := 0x1908,
          glInternalFormat := 0x1908, glBaseInternalFormat := 0x1908 }
        ['z', 'z'] (fun _ => none) (fun _ _ => { format := 37, size := 64 })
      = Except.error 1
    ∧ exportKtxFaces
        { glType := 0x1401, glTypeSize := 4, glFormat := 0x1908,
          glInternalFormat := 0x1908, glBaseInternalFormat := 0x1908 }
        ['e', 't', 'c']
        (fun t => if t = ['e', 't', 'c'] then some { tag := 7 } else none)
        (fun _ _ => { format := 37, size := 64 })
      = Except.ok
          { glType := 0x1401, glTypeSize := 1, glFormat := 0,
            glInternalFormat := 37, glBaseInternalFormat := KtxRGBA } := by
  constructor
  · exact (c6_ktx_compression _ ['z', 'z'] _ _ (by simp)).1 rfl
  · exact (c6_ktx_compression _ ['e', 't', 'c'] _ _ (by simp)).2 { tag := 7 } (by simp)

/-- Modelled from the spec: `CubemapSH::getShIndex` (CubemapSH sources not under
src/), the fixed index function `index(l, m) = l² + l + m`. -/
def getShIndex (m : Int) (l : Nat) : Int := (l : Int) ^ 2 + l + m

/-- cmgen.cpp:710-730 (`outputSh`): the emission order of SH coefficient
triples - band `l` outer from 0 to `numBands - 1`, order `m` inner from `-l` to
`l`; one `(l, m)` pair per emitted RGB triple. -/
def outputShEntries : Nat → List (Nat × Int)
  | 0 => []
  | n + 1 =>
      outputShEntries n ++
        (List.range (2 * n + 1)).map (fun j : Nat => ((n, (j : Int) - (n : Int)) : Nat × Int))

/-- C7: for every band count `n`, `outputSh` emits exactly `n²` RGB coefficient
triples, enumerated with band `l` outer from 0 to `n-1` and order `m` inner from
`-l` to `l`, reading coefficient slot `index(l, m) = l² + l + m`; the slots read
are exactly 0, 1, ..., n²-1 in order, and a 3-band request emits exactly 9
triples. -/
theorem c7_sh_output_count (n : Nat) :
    (outputShEntries n).length = n * n
    ∧ (outputShEntries n).map (fun p => getShIndex p.2 p.1) =
        (List.range (n * n)).map (fun i : Nat => (i : Int))
    ∧ (outputShEntries 3).length = 9 := by
  have hlen : ∀ b : Nat, (outputShEntries b).length = b * b := by
    intro b
    induction b with
    | zero => rfl
    | succ m ih =>
        show (outputShEntries m ++ _).length = _
        rw [List.length_append, ih, List.length_map, List.length_range]
        ring
  have hmap : ∀ b : Nat, (outputShEntries b).map (fun p => getShIndex p.2 p.1) =
      (List.range (b * b)).map (fun i : Nat => (i : Int)) := by
    intro b
    induction b with
    | zero => rfl
    | succ m ih =>
        have hsq : (m + 1) * (m + 1) = m * m + (2 * m + 1) := by ring
        show (outputShEntries m ++ _).map _ = _
        rw [List.map_append, ih, List.map_map]
        conv_rhs => rw [hsq, List.range_add, List.map_append, List.map_map]
        congr 1
        apply List.map_congr_left
        intro j hj
        simp only [Function.comp_apply, getShIndex]
        push_cast
        ring
  exact ⟨hlen n, hmap n, hlen 3⟩

/-- The characters C's `isspace` accepts in the default locale: space, `\t`,
`\n`, vertical tab (11), form feed (12), `\r`. -/
def isSpaceChar (c : Char) : Bool :=
  c == ' ' || c == '\t' || c == '\n' || c.toNat == 11 || c.toNat == 12 || c == '\r'

/-- The raw (unbounded) decimal value of a digit run; bounding to the C types
happens in `uIntOfScan`. -/
def decDigitsToNat (ds : List Char) : Nat :=
  ds.foldl (fun a c => a * 10 + (c.toNat - 48)) 0

/-- The value `sscanf`'s `%u` stores for a sign and digit run, as glibc computes
it: the digits are converted as by `strtoul` into a 64-bit `unsigned long` - the
magnitude saturating at `ULONG_MAX = 2^64 - 1`, a minus sign negating modulo
`2^64` - and the result is assigned to the 32-bit `unsigned` argument,
truncating modulo `2^32`. -/
def uIntOfScan (neg : Bool) (ds : List Char) : Nat :=
  let mag := min (decDigitsToNat ds) (2 ^ 64 - 1)
  let v := if neg then (2 ^ 64 - mag) % 2 ^ 64 else mag
  v % 2 ^ 32

/-- The `%u` conversion applied after an optional sign has been consumed: it
matches the longest nonempty run of decimal digits and stores its value; no
digit is a matching failure. -/
def scanDigits (neg : Bool) (s : List Char) : Option Nat :=
  let ds := s.takeWhile (fun c => c.isDigit)
  if ds.isEmpty then none else some (uIntOfScan neg ds)

/-- cmgen.cpp:533-539: `sscanf(name, "PFX%u", &p) == 1`, per C11 fscanf: the
literal characters of PFX must match the leading characters of the name exactly,
and `%u` then skips white-space, accepts one optional `+` or `-` sign, and
consumes a nonempty run of decimal digits converted as by `strtoul` into the
32-bit `unsigned` argument (`uIntOfScan`); trailing characters are ignored, as
sscanf ignores them. -/
def scanPatternUInt : List Char → List Char → Option Nat
  | [], s =>
      match s.dropWhile isSpaceChar with
      | '-' :: rest => scanDigits true rest
      | '+' :: rest => scanDigits false rest
      | rest => scanDigits false rest
  | _ :: _, [] => none
  | p :: ps, c :: cs => if c = p then scanPatternUInt ps cs else none

/-- The synthetic cubemap content generated when the input file does not exist:
a UV grid of the given horizontal/vertical frequencies, or a BRDF lobe
visualization. -/
inductive SyntheticCubemap where
  | uvGrid (u v : Nat)
  | brdf (p : Nat)
deriving DecidableEq, Repr

/-- cmgen.cpp:522-547 (`main`, missing-input branch): the synthetic cubemap
chosen from the basename - patterns `uv%u` (grid p×p), `u%u` (grid p×1), `v%u`
(grid 1×p) and `brdf%u` are tried in that order, with a plain 1×1 UV grid as the
fallback. The branch has no exit path: it is a total function of the name. -/
def synthesizeCubemap (name : List Char) : SyntheticCubemap :=
  match scanPatternUInt ['u', 'v'] name with
  | some p => SyntheticCubemap.uvGrid p p
  | none =>
    match scanPatternUInt ['u'] name with
    | some p => SyntheticCubemap.uvGrid p 1
    | none =>
      match scanPatternUInt ['v'] name with
      | some p => SyntheticCubemap.uvGrid 1 p
      | none =>
        match scanPatternUInt ['b', 'r', 'd', 'f'] name with
        | some p => SyntheticCubemap.brdf p
        | none => SyntheticCubemap.uvGrid 1 1

/-- cmgen.cpp:52 - `IBL_DEFAULT_SIZE = 256`. -/
def IBL_DEFAULT_SIZE : Nat := 256

/-- cmgen.cpp:527: `size_t dim = g_output_size ? g_output_size :
IBL_DEFAULT_SIZE` (`g_output_size` is 0 unless `--size` was passed). -/
def dimFor (gOutputSize : Nat) : Nat :=
  if gOutputSize ≠ 0 then gOutputSize else IBL_DEFAULT_SIZE

/-- cmgen.cpp:522-548: the outcome of the missing-input branch - the edge
dimension and the synthetic cubemap generated at it. -/
def missingInputCubemap (name : List Char) (gOutputSize : Nat) :
    Nat × SyntheticCubemap :=
  (dimFor gOutputSize, synthesizeCubemap name)

/-- C8: for every input path that does not exist, the pipeline does not fail:
the missing-input branch always produces a synthetic cubemap. A basename
matching `uv%u`, `u%u`, `v%u` or `brdf%u` (tried in that order) yields the
corresponding synthetic content, and a basename matching none of them falls
back to a plain UV grid of frequency 1×1 at the default output size (256 when
`--size` was not passed). -/
theorem c8_missing_input_fallback (name : List Char) (sz : Nat) :
    (∀ p, scanPatternUInt ['u', 'v'] name = some p →
        synthesizeCubemap name = SyntheticCubemap.uvGrid p p)
    ∧ (scanPatternUInt ['u', 'v'] name = none →
        ∀ p, scanPatternUInt ['u'] name = some p →
          synthesizeCubemap name = SyntheticCubemap.uvGrid p 1)
    ∧ (scanPatternUInt ['u', 'v'] name = none →
        scanPatternUInt ['u'] name = none →
        ∀ p, scanPatternUInt ['v'] name = some p →
          synthesizeCubemap name = SyntheticCubemap.uvGrid 1 p)
    ∧ (scanPatternUInt ['u', 'v'] name = none →
        scanPatternUInt ['u'] name = none →
        scanPatternUInt ['v'] name = none →
        ∀ p, scanPatternUInt ['b', 'r', 'd', 'f'] name = some p →
          synthesizeCubemap name = SyntheticCubemap.brdf p)
    ∧ (scanPatternUInt ['u', 'v'] name = none →
        scanPatternUInt ['u'] name = none →
        scanPatternUInt ['v'] name = none →
        scanPatternUInt ['b', 'r', 'd', 'f'] name = none →
        missingInputCubemap name sz = (dimFor sz, SyntheticCubemap.uvGrid 1 1)
          ∧ missingInputCubemap name 0 = (256, SyntheticCubemap.uvGrid 1 1)) := by
  refine ⟨fun p h1 => ?_, fun h1 p h2 => ?_, fun h1 h2 p h3 => ?_,
    fun h1 h2 h3 p h4 => ?_, fun h1 h2 h3 h4 => ?_⟩
  · unfold synthesizeCubemap
    rw [h1]
  · unfold synthesizeCubemap
    rw [h1, h2]
  · unfold synthesizeCubemap
    rw [h1, h2, h3]
  · unfold synthesizeCubemap
    rw [h1, h2, h3, h4]
  · have hsyn : synthesizeCubemap name = SyntheticCubemap.uvGrid 1 1 := by
      unfold synthesizeCubemap
      rw [h1, h2, h3, h4]
    constructor
    · unfold missingInputCubemap
      rw [hsyn]
    · unfold missingInputCubemap
      rw [hsyn]
      rfl

/-- Witness for C8: the basename "uv3" yields a 3×3 UV grid; the basename
"uv -3" also matches `uv%u` (white-space skipped, the sign wrapping to the
32-bit value 4294967293) and yields the corresponding grid; and the basename
"env" (matching no pattern) falls back to a 1×1 UV grid at the default 256
dimension. -/
theorem c8_missing_input_fallback_witness :
    synthesizeCubemap ['u', 'v', '3'] = SyntheticCubemap.uvGrid 3 3
    ∧ synthesizeCubemap ['u', 'v', ' ', '-', '3'] =
        SyntheticCubemap.uvGrid 4294967293 4294967293
    ∧ missingInputCubemap ['e', 'n', 'v'] 0 = (256, SyntheticCubemap.uvGrid 1 1) := by
  refine ⟨?_, ?_, ?_⟩
  · exact (c8_missing_input_fallback ['u', 'v', '3'] 0).1 3 (by decide)
  · exact (c8_missing_input_fallback ['u', 'v', ' ', '-', '3'] 0).1 4294967293 (by decide)
  · exact ((c8_missing_input_fallback ['e', 'n', 'v'] 0).2.2.2.2
      (by decide) (by decide) (by decide) (by decide)).2

end Cmgen
